import Mathlib

/-!
# ASyncTCP: connection lifecycle, reconnect policy and write serialisation

A shallow embedding of `hardware/ASyncTCP.cpp`.

The client object and the part of its environment it talks to are one record:

* the member variables of the class (`mIsConnected`, `mIsClosing`, ...), with the names of the source;
* `pending`: what the execution engine `mIos` still owes the client, that is the handlers
  posted with `mIos.post` and the asynchronous operations (`async_connect`, `async_handshake`,
  `async_read_some`, `async_write`, the `async_wait` of the reconnect timer) whose completion
  handler has not run yet;
* `log`: every call the client made on the event sink, the sockets and the timer, oldest first.

Each member function of the source is a function on that record.  An `Event` is either a public
call or the engine running one pending item; the environment chooses which pending item runs next
and with which error code.  Closing a socket or cancelling the timer does not remove a pending
item: as with boost.asio the handler still runs, later, with an error code of the environment's
choosing (`do_reconnect` ignores its error code, `handle_handshake` too).
-/

namespace ASyncTCPModel

/-- Value of a `boost::system::error_code`; `0` is success (`!error`). -/
abbrev error_code := Nat

/-- The value standing for `boost::asio::error::host_not_found`. -/
def host_not_found : error_code := 1

/-- Payload of a `std::string` message, as bytes. -/
abbrev Msg := List Nat

/-- A resolved `boost::asio::ip::tcp::endpoint`. -/
structure endpoint where
  address : Nat
  port : Nat
deriving DecidableEq, Repr

/-- Calls on the event sink. -/
inductive Notification where
  | OnConnect
  | OnDisconnect
  | OnError (error : error_code)
  | OnErrorException
  | OnData (data : Msg)
deriving DecidableEq, Repr

/-- Calls the client makes on its collaborators. -/
inductive Effect where
  | notify (n : Notification)
  | async_connect (ep : endpoint)
  | async_handshake
  | async_read_some
  | async_write (msg : Msg)
  | set_keep_alive
  | socket_close
  | expires_from_now (seconds : Int)
  | timer_cancel
deriving DecidableEq, Repr

/-- Work the execution engine still owes the client: posted handlers, then operations awaiting
their completion handler. -/
inductive Pending where
  | do_close
  | read
  | do_write (msg : Msg)
  | async_connect
  | async_handshake
  | async_read
  | async_write
  | async_wait
deriving DecidableEq, Repr

/-- The client (member variables of the class) with its engine queue and its effect log. -/
structure ASyncTCP where
  mIsConnected : Bool
  mIsClosing : Bool
  mWriteInProgress : Bool
  mSecure : Bool
  mDoReconnect : Bool
  mIsReconnecting : Bool
  mAllowCallbacks : Bool
  m_reconnect_delay : Int
  mEndPoint : endpoint
  mMsgBuffer : Msg
  writeQ : List Msg
  pending : List Pending
  log : List Effect
deriving DecidableEq, Repr

/-- The constant `RECONNECT_TIME`. -/
def RECONNECT_TIME : Int := 30

/-- The constructor `ASyncTCP::ASyncTCP(secure)`. -/
def ASyncTCP.new (secure : Bool) : ASyncTCP :=
  { mIsConnected := false
    mIsClosing := false
    mWriteInProgress := false
    mSecure := secure
    mDoReconnect := true
    mIsReconnecting := false
    mAllowCallbacks := true
    m_reconnect_delay := RECONNECT_TIME
    mEndPoint := ⟨0, 0⟩
    mMsgBuffer := []
    writeQ := []
    pending := []
    log := [] }

/-- Record a call on a collaborator. -/
def ASyncTCP.emit (s : ASyncTCP) (e : Effect) : ASyncTCP :=
  { s with log := s.log ++ [e] }

/-- The guarded sink call of the source, `if (mAllowCallbacks) On...();`. -/
def ASyncTCP.callback (s : ASyncTCP) (n : Notification) : ASyncTCP :=
  if s.mAllowCallbacks then s.emit (.notify n) else s

/-- Hand a handler or an asynchronous operation to the engine (`mIos.post`, `async_*`). -/
def ASyncTCP.post (s : ASyncTCP) (p : Pending) : ASyncTCP :=
  { s with pending := s.pending ++ [p] }

/-- The member `ASyncTCP::SetReconnectDelay`. -/
def ASyncTCP.SetReconnectDelay (s : ASyncTCP) (Delay : Int) : ASyncTCP :=
  { s with m_reconnect_delay := Delay }

/-- The member `ASyncTCP::connect(endpoint)`; both sockets take the same `async_connect`. -/
def ASyncTCP.connect (s : ASyncTCP) (ep : endpoint) : ASyncTCP :=
  if s.mIsConnected then s
  else if s.mIsClosing then s
  else
    let s1 := { s with mAllowCallbacks := true, mEndPoint := ep }
    (s1.emit (.async_connect ep)).post .async_connect

/-- The member `ASyncTCP::connect(ip, port)`.  `resolved` is what the resolver did: `none` when it
threw, otherwise the addresses it produced.  With no first address the address string is empty and
`from_string` throws. -/
def ASyncTCP.connect_host (s : ASyncTCP) (resolved : Option (List Nat)) (port : Nat) : ASyncTCP :=
  match resolved with
  | none =>
    if !s.mAllowCallbacks then s
    else
      let s1 := s.emit (.notify (.OnError host_not_found))
      s1.callback .OnErrorException
  | some [] => s.callback .OnErrorException
  | some (a :: _) => s.connect ⟨a, port⟩

/-- The member `ASyncTCP::close`. -/
def ASyncTCP.close (s : ASyncTCP) : ASyncTCP :=
  if !s.mIsConnected then s else s.post .do_close

/-- The member `ASyncTCP::disconnect`; `close` only posts, so nothing is thrown and `silent` has
nothing to swallow. -/
def ASyncTCP.disconnect (s : ASyncTCP) (_silent : Bool) : ASyncTCP :=
  let s1 := s.close
  { s1 with mIsConnected := false, mIsClosing := false }

/-- The member `ASyncTCP::terminate`. -/
def ASyncTCP.terminate (s : ASyncTCP) (silent : Bool) : ASyncTCP :=
  ASyncTCP.disconnect { s with mAllowCallbacks := false } silent

/-- The member `ASyncTCP::StartReconnect`. -/
def ASyncTCP.StartReconnect (s : ASyncTCP) : ASyncTCP :=
  if s.m_reconnect_delay != 0 then
    let s1 := { s with mIsReconnecting := true }
    (s1.emit (.expires_from_now s1.m_reconnect_delay)).post .async_wait
  else s

/-- The member `ASyncTCP::read`. -/
def ASyncTCP.read (s : ASyncTCP) : ASyncTCP :=
  if !s.mIsConnected then s
  else if s.mIsClosing then s
  else (s.emit .async_read_some).post .async_read

/-- The member `ASyncTCP::write(msg)`. -/
def ASyncTCP.write (s : ASyncTCP) (msg : Msg) : ASyncTCP :=
  if s.mWriteInProgress then { s with writeQ := s.writeQ ++ [msg] }
  else ASyncTCP.post { s with mWriteInProgress := true } (.do_write msg)

/-- The member `ASyncTCP::handle_connect`. -/
def ASyncTCP.handle_connect (s : ASyncTCP) (error : error_code) : ASyncTCP :=
  if s.mIsClosing then s
  else if error = 0 then
    if s.mSecure then (s.emit .async_handshake).post .async_handshake
    else
      let s1 := { s with mIsConnected := true }
      let s2 := s1.emit .set_keep_alive
      let s3 := s2.callback .OnConnect
      s3.post .read
  else
    let s1 := { s with mIsConnected := false }
    let s2 := s1.callback (.OnError error)
    if !s2.mDoReconnect then s2.callback .OnDisconnect
    else if !s2.mIsReconnecting then s2.StartReconnect
    else s2

/-- The member `ASyncTCP::handle_handshake`; the error code is not looked at. -/
def ASyncTCP.handle_handshake (s : ASyncTCP) (_error : error_code) : ASyncTCP :=
  let s1 := { s with mIsConnected := true }
  let s2 := s1.callback .OnConnect
  s2.post .read

/-- The member `ASyncTCP::do_close`. -/
def ASyncTCP.do_close (s : ASyncTCP) : ASyncTCP :=
  if s.mIsClosing then s
  else ASyncTCP.emit { s with mIsClosing := true } .socket_close

/-- The member `ASyncTCP::handle_read`; `data` is the received part of `m_rx_buffer`. -/
def ASyncTCP.handle_read (s : ASyncTCP) (error : error_code) (data : Msg) : ASyncTCP :=
  if error = 0 then
    let s1 := s.callback (.OnData data)
    s1.post .read
  else if !s.mIsClosing then
    let s1 := { s with mIsConnected := false }
    let s2 := s1.callback (.OnError error)
    if !s2.mDoReconnect then s2.callback .OnDisconnect
    else if !s2.mIsReconnecting then s2.StartReconnect
    else s2
  else s.do_close

/-- The member `ASyncTCP::do_write`. -/
def ASyncTCP.do_write (s : ASyncTCP) (msg : Msg) : ASyncTCP :=
  if !s.mIsConnected then s
  else if !s.mIsClosing then
    let s1 := { s with mMsgBuffer := msg }
    (s1.emit (.async_write s1.mMsgBuffer)).post .async_write
  else s

/-- The member `ASyncTCP::write_end`. -/
def ASyncTCP.write_end (s : ASyncTCP) (error : error_code) : ASyncTCP :=
  if !s.mIsClosing then
    if error ≠ 0 then
      let s1 := s.callback (.OnError error)
      let s2 := { s1 with mIsConnected := false }
      if !s2.mDoReconnect then s2.callback .OnDisconnect
      else if !s2.mIsReconnecting then s2.StartReconnect
      else s2
    else
      match s.writeQ with
      | msg :: rest => ASyncTCP.post { s with writeQ := rest } (.do_write msg)
      | [] => { s with mWriteInProgress := false }
  else s

/-- The member `ASyncTCP::do_reconnect`; the error code is not looked at. -/
def ASyncTCP.do_reconnect (s : ASyncTCP) (_error : error_code) : ASyncTCP :=
  if s.mIsConnected then s
  else if s.mIsClosing then s
  else
    let s1 := s.emit .socket_close
    if !s1.mDoReconnect then s1
    else
      let s2 := s1.emit .timer_cancel
      let s3 := (s2.emit (.async_connect s2.mEndPoint)).post .async_connect
      { s3 with mIsReconnecting := false }

/-- What can happen to a client: a public call, or the engine running one pending item. -/
inductive Event where
  | connect (ep : endpoint)
  | connect_host (resolved : Option (List Nat)) (port : Nat)
  | disconnect (silent : Bool)
  | terminate (silent : Bool)
  | write (msg : Msg)
  | SetReconnectDelay (Delay : Int)
  | run_do_close
  | run_read
  | run_do_write (msg : Msg)
  | connect_done (error : error_code)
  | handshake_done (error : error_code)
  | read_done (error : error_code) (data : Msg)
  | write_done (error : error_code)
  | timer_done (error : error_code)
deriving DecidableEq, Repr

/-- The engine runs the handler of pending item `p`; nothing happens when `p` is not pending. -/
def ASyncTCP.deliver (s : ASyncTCP) (p : Pending) (handler : ASyncTCP → ASyncTCP) : ASyncTCP :=
  if p ∈ s.pending then handler { s with pending := s.pending.erase p } else s

/-- One event. -/
def ASyncTCP.step (s : ASyncTCP) : Event → ASyncTCP
  | .connect ep => s.connect ep
  | .connect_host resolved port => s.connect_host resolved port
  | .disconnect silent => s.disconnect silent
  | .terminate silent => s.terminate silent
  | .write msg => s.write msg
  | .SetReconnectDelay d => s.SetReconnectDelay d
  | .run_do_close => s.deliver .do_close (fun t => t.do_close)
  | .run_read => s.deliver .read (fun t => t.read)
  | .run_do_write msg => s.deliver (.do_write msg) (fun t => t.do_write msg)
  | .connect_done error => s.deliver .async_connect (fun t => t.handle_connect error)
  | .handshake_done error => s.deliver .async_handshake (fun t => t.handle_handshake error)
  | .read_done error data => s.deliver .async_read (fun t => t.handle_read error data)
  | .write_done error => s.deliver .async_write (fun t => t.write_end error)
  | .timer_done error => s.deliver .async_wait (fun t => t.do_reconnect error)

/-- A sequence of events, oldest first. -/
def ASyncTCP.run (s : ASyncTCP) (evs : List Event) : ASyncTCP :=
  evs.foldl ASyncTCP.step s

/-- The sink call in an effect, if it is one. -/
@[simp]
def Effect.notification? : Effect → Option Notification
  | .notify n => some n
  | _ => none

/-- The message in an effect, if it is a transport write. -/
@[simp]
def Effect.written? : Effect → Option Msg
  | .async_write m => some m
  | _ => none

/-- The endpoint in an effect, if it is a transport connect. -/
@[simp]
def Effect.connected? : Effect → Option endpoint
  | .async_connect ep => some ep
  | _ => none

/-- The delay in an effect, if it arms the reconnect timer. -/
@[simp]
def Effect.arming? : Effect → Option Int
  | .expires_from_now d => some d
  | _ => none

/-- The event sink calls made so far, oldest first. -/
def ASyncTCP.notifications (s : ASyncTCP) : List Notification :=
  s.log.filterMap Effect.notification?

/-- The messages handed to the transport so far, oldest first. -/
def ASyncTCP.transmitted (s : ASyncTCP) : List Msg :=
  s.log.filterMap Effect.written?

/-- The endpoints of the connects submitted to the transport so far, oldest first. -/
def ASyncTCP.connects (s : ASyncTCP) : List endpoint :=
  s.log.filterMap Effect.connected?

/-- The delays the reconnect timer was armed with so far, oldest first. -/
def ASyncTCP.armings (s : ASyncTCP) : List Int :=
  s.log.filterMap Effect.arming?

/-- Whether a pending item is a write submission: a posted `do_write` or a transport write. -/
def Pending.isWrite : Pending → Bool
  | .do_write _ => true
  | .async_write => true
  | _ => false

/-- Number of write submissions outstanding. -/
def ASyncTCP.outstanding_writes (s : ASyncTCP) : Nat :=
  (s.pending.filter Pending.isWrite).length

/-- Number of reconnect timer waits outstanding. -/
def ASyncTCP.armed (s : ASyncTCP) : Nat :=
  s.pending.count .async_wait

/-- Whether an event is the engine running a pending item (a posted handler or a completion),
as opposed to a public call. -/
def Event.isCompletion : Event → Bool
  | .run_do_close => true
  | .run_read => true
  | .run_do_write _ => true
  | .connect_done _ => true
  | .handshake_done _ => true
  | .read_done _ _ => true
  | .write_done _ => true
  | .timer_done _ => true
  | _ => false

/-- Whether an event is a connect, read or write completion carrying an error. -/
def Event.isFailure : Event → Bool
  | .connect_done error => error != 0
  | .read_done error _ => error != 0
  | .write_done error => error != 0
  | _ => false

/-- The endpoint 192.0.2.1:9 of the scenarios. -/
def E0 : endpoint := ⟨3221225985, 9⟩

/-- A plaintext client connected to `E0`, its first read submitted. -/
def connectedClient : ASyncTCP :=
  (ASyncTCP.new false).run [.connect E0, .connect_done 0, .run_read]

/-- Whether an event is part of the write path: `write`, a posted `do_write` running, or a
write completion. -/
def Event.isWritePath : Event → Bool
  | .write _ => true
  | .run_do_write _ => true
  | .write_done _ => true
  | _ => false

/-- Whether an event is a `write` call, a posted `do_write` running, or a write completion
without error. -/
def Event.isWriteTraffic : Event → Bool
  | .write _ => true
  | .run_do_write _ => true
  | .write_done error => error == 0
  | _ => false

/-- The message of a `write` call. -/
def Event.message? : Event → Option Msg
  | .write msg => some msg
  | _ => none

/-- The engine runs the outstanding write submission, the transport write completing without
error, and goes on until none is outstanding or `n` of them have run. -/
def ASyncTCP.settle_writes : Nat → ASyncTCP → ASyncTCP
  | 0, s => s
  | n + 1, s =>
    match s.pending.filter Pending.isWrite with
    | .do_write msg :: _ => ASyncTCP.settle_writes n (s.step (.run_do_write msg))
    | .async_write :: _ => ASyncTCP.settle_writes n (s.step (.write_done 0))
    | _ => s

/-- Where the write path of a connected client stands, `t0` being what was transmitted before
and `ms` the messages written since: idle with all of `ms` transmitted; or one posted `do_write`
carrying the next message; or one transport write in flight. -/
def WriteInv (t0 ms : List Msg) (s : ASyncTCP) : Prop :=
  s.mIsConnected = true ∧ s.mIsClosing = false ∧
  ∃ sent, s.transmitted = t0 ++ sent ∧
    ((s.pending.filter Pending.isWrite = [] ∧ s.mWriteInProgress = false ∧
        s.writeQ = [] ∧ sent = ms) ∨
     (∃ m, s.pending.filter Pending.isWrite = [.do_write m] ∧ s.mWriteInProgress = true ∧
        sent ++ m :: s.writeQ = ms) ∨
     (s.pending.filter Pending.isWrite = [.async_write] ∧ s.mWriteInProgress = true ∧
        sent ++ s.writeQ = ms))

/-- What `connect(ip, port)` tells the event sink about address resolution when callbacks are
allowed: `host_not_found` then the exception of `from_string` when the resolver threw, that
exception alone when the resolver produced no address, nothing when it produced one. -/
def resolution_errors : Option (List Nat) → List Effect
  | none => [.notify (.OnError host_not_found), .notify .OnErrorException]
  | some [] => [.notify .OnErrorException]
  | some (_ :: _) => []

/-- A plaintext client with reconnect delay 5, connected to `E`, its first read submitted. -/
def reconnectScenario (E : endpoint) : ASyncTCP :=
  ((ASyncTCP.new false).SetReconnectDelay 5).run [.connect E, .connect_done 0, .run_read]

/-- The message carried by a posted `do_write`. -/
def Pending.message? : Pending → Option Msg
  | .do_write msg => some msg
  | _ => none

/-- The messages of the posted `do_write` handlers that have not run yet. -/
def ASyncTCP.posted_writes (s : ASyncTCP) : List Msg :=
  s.pending.filterMap Pending.message?

/-- What went into the write path so far, oldest first: the messages passed to `write`, and
the messages with which the engine has run `do_write`. -/
structure WriteHistory where
  written : List Msg
  ran : List Msg
deriving DecidableEq, Repr

/-- The history after event `e` happens in state `s`. -/
def WriteHistory.record (h : WriteHistory) (s : ASyncTCP) : Event → WriteHistory
  | .write msg => { h with written := h.written ++ [msg] }
  | .run_do_write msg =>
    if Pending.do_write msg ∈ s.pending then { h with ran := h.ran ++ [msg] } else h
  | _ => h

/-- A sequence of events, keeping the write history along. -/
def ASyncTCP.run_recording (s : ASyncTCP) (h : WriteHistory) : List Event → ASyncTCP × WriteHistory
  | [] => (s, h)
  | e :: evs => ASyncTCP.run_recording (s.step e) (h.record s e) evs

/-- Queue conservation: at most one write submission outstanding (none with the in-flight flag
false); the messages `do_write` ran with, then the posted ones, then the queue are the written
messages; the queue is empty when the in-flight flag is false; what was transmitted is a
subsequence of what `do_write` ran with. -/
def QueueInv (s : ASyncTCP) (h : WriteHistory) : Prop :=
  (s.outstanding_writes ≤ 1 ∧ (s.mWriteInProgress = false → s.outstanding_writes = 0)) ∧
  h.ran ++ s.posted_writes ++ s.writeQ = h.written ∧
  (s.mWriteInProgress = false → s.writeQ = []) ∧
  s.transmitted.Sublist h.ran

/-! ## Basic facts about the log and the event loop -/

/-- No event: the state is unchanged. -/
theorem run_nil (s : ASyncTCP) : s.run [] = s := rfl

/-- A run takes its first event, then the rest. -/
theorem run_cons (s : ASyncTCP) (e : Event) (evs : List Event) :
    s.run (e :: evs) = (s.step e).run evs := rfl

/-- Running two sequences one after the other is running their concatenation. -/
theorem run_append (s : ASyncTCP) (evs evs2 : List Event) :
    s.run (evs ++ evs2) = (s.run evs).run evs2 := by
  simp [ASyncTCP.run, List.foldl_append]

/-- A property kept by every event holds after every sequence of events. -/
theorem run_induction (P : ASyncTCP → Prop) (hstep : ∀ s e, P s → P (s.step e))
    (s : ASyncTCP) (h : P s) (evs : List Event) : P (s.run evs) := by
  induction evs generalizing s with
  | nil => exact h
  | cons e evs ih => exact ih (s.step e) (hstep s e h)

/-- A property kept by every event of a given kind holds after every sequence of such events. -/
theorem run_induction_on (K : Event → Bool) (P : ASyncTCP → Prop)
    (hstep : ∀ s e, K e = true → P s → P (s.step e))
    (s : ASyncTCP) (h : P s) (evs : List Event) (hk : ∀ e ∈ evs, K e = true) :
    P (s.run evs) := by
  induction evs generalizing s with
  | nil => exact h
  | cons e evs ih =>
    exact ih (s.step e) (hstep s e (hk e (List.mem_cons_self e evs)) h)
      (fun x hx => hk x (List.mem_cons_of_mem e hx))

/-! ## How the building blocks act on the fields -/

/-- Recording an effect changes the log only. -/
@[simp]
theorem emit_fields (s : ASyncTCP) (e : Effect) :
    (s.emit e).mIsConnected = s.mIsConnected ∧
    (s.emit e).mIsClosing = s.mIsClosing ∧
    (s.emit e).mWriteInProgress = s.mWriteInProgress ∧
    (s.emit e).mSecure = s.mSecure ∧
    (s.emit e).mDoReconnect = s.mDoReconnect ∧
    (s.emit e).mIsReconnecting = s.mIsReconnecting ∧
    (s.emit e).mAllowCallbacks = s.mAllowCallbacks ∧
    (s.emit e).m_reconnect_delay = s.m_reconnect_delay ∧
    (s.emit e).mEndPoint = s.mEndPoint ∧
    (s.emit e).mMsgBuffer = s.mMsgBuffer ∧
    (s.emit e).writeQ = s.writeQ ∧
    (s.emit e).pending = s.pending ∧
    (s.emit e).log = s.log ++ [e] := by
  simp [ASyncTCP.emit]

/-- Handing work to the engine changes the pending items only. -/
@[simp]
theorem post_fields (s : ASyncTCP) (p : Pending) :
    (s.post p).mIsConnected = s.mIsConnected ∧
    (s.post p).mIsClosing = s.mIsClosing ∧
    (s.post p).mWriteInProgress = s.mWriteInProgress ∧
    (s.post p).mSecure = s.mSecure ∧
    (s.post p).mDoReconnect = s.mDoReconnect ∧
    (s.post p).mIsReconnecting = s.mIsReconnecting ∧
    (s.post p).mAllowCallbacks = s.mAllowCallbacks ∧
    (s.post p).m_reconnect_delay = s.m_reconnect_delay ∧
    (s.post p).mEndPoint = s.mEndPoint ∧
    (s.post p).mMsgBuffer = s.mMsgBuffer ∧
    (s.post p).writeQ = s.writeQ ∧
    (s.post p).log = s.log ∧
    (s.post p).pending = s.pending ++ [p] := by
  simp [ASyncTCP.post]

/-- A guarded sink call changes the log only, and only when callbacks are allowed. -/
@[simp]
theorem callback_fields (s : ASyncTCP) (n : Notification) :
    (s.callback n).mIsConnected = s.mIsConnected ∧
    (s.callback n).mIsClosing = s.mIsClosing ∧
    (s.callback n).mWriteInProgress = s.mWriteInProgress ∧
    (s.callback n).mSecure = s.mSecure ∧
    (s.callback n).mDoReconnect = s.mDoReconnect ∧
    (s.callback n).mIsReconnecting = s.mIsReconnecting ∧
    (s.callback n).mAllowCallbacks = s.mAllowCallbacks ∧
    (s.callback n).m_reconnect_delay = s.m_reconnect_delay ∧
    (s.callback n).mEndPoint = s.mEndPoint ∧
    (s.callback n).mMsgBuffer = s.mMsgBuffer ∧
    (s.callback n).writeQ = s.writeQ ∧
    (s.callback n).pending = s.pending ∧
    (s.callback n).log = s.log ++ (if s.mAllowCallbacks then [Effect.notify n] else []) := by
  unfold ASyncTCP.callback
  split <;> simp_all

/-! ## Callback suppression -/

/-- With callbacks disallowed, the engine running a pending item leaves them disallowed and
calls nothing on the event sink. -/
theorem step_suppressed (s : ASyncTCP) (e : Event) (he : e.isCompletion = true)
    (h : s.mAllowCallbacks = false) :
    (s.step e).mAllowCallbacks = false ∧ (s.step e).notifications = s.notifications := by
  cases e <;> simp [Event.isCompletion] at he <;>
    simp only [ASyncTCP.step, ASyncTCP.deliver, ASyncTCP.do_close, ASyncTCP.read,
      ASyncTCP.do_write, ASyncTCP.handle_connect, ASyncTCP.handle_handshake,
      ASyncTCP.handle_read, ASyncTCP.write_end, ASyncTCP.do_reconnect,
      ASyncTCP.StartReconnect, ASyncTCP.notifications] <;>
    split_ifs <;> (try split) <;> simp_all

/-- C3: after `terminate()`, whatever pending handlers and completions the engine still runs
(connect, handshake, read, write results, posted close or read, timer expiry, with or without
error), no `OnConnect`, `OnDisconnect`, `OnError` or `OnData` reaches the event sink. -/
theorem callback_suppression (s : ASyncTCP) (silent : Bool) (evs : List Event)
    (hevs : ∀ e ∈ evs, e.isCompletion = true) :
    ((s.terminate silent).run evs).notifications = s.notifications := by
  have key := run_induction_on Event.isCompletion
    (fun t => t.mAllowCallbacks = false ∧ t.notifications = s.notifications)
    (fun t e he ht =>
      ⟨(step_suppressed t e he ht.1).1, (step_suppressed t e he ht.1).2.trans ht.2⟩)
    (s.terminate silent)
    (by
      simp only [ASyncTCP.terminate, ASyncTCP.disconnect, ASyncTCP.close,
        ASyncTCP.notifications]
      split <;> simp)
    evs hevs
  exact key.2

/-- Callback suppression on a connected client: the close, the failing read, a write result, a
connect result and a timer expiry that follow `terminate()` notify nothing. -/
theorem callback_suppression_witness :
    (∀ e ∈ [Event.run_do_close, .read_done 104 [], .write_done 32, .connect_done 111,
        .timer_done 0], e.isCompletion = true) ∧
    ((connectedClient.terminate false).run [Event.run_do_close, .read_done 104 [],
        .write_done 32, .connect_done 111, .timer_done 0]).notifications
      = connectedClient.notifications :=
  ⟨by decide, callback_suppression connectedClient false _ (by decide)⟩

/-! ## Reconnect disabled by a delay of 0 -/

/-- C4 as stated fails: a plaintext client with reconnect delay 0, callbacks allowed and not
closing, whose connect fails with error 111, notifies `OnError 111` and nothing else. -/
theorem delay_zero_connect_failure_notifies_error_only :
    (((ASyncTCP.new false).SetReconnectDelay 0).connect E0).m_reconnect_delay = 0 ∧
    (((ASyncTCP.new false).SetReconnectDelay 0).connect E0).mAllowCallbacks = true ∧
    (((ASyncTCP.new false).SetReconnectDelay 0).connect E0).mIsClosing = false ∧
    ((((ASyncTCP.new false).SetReconnectDelay 0).connect E0).step
        (.connect_done 111)).notifications = [.OnError 111] ∧
    ((((ASyncTCP.new false).SetReconnectDelay 0).connect E0).step
        (.connect_done 111)).notifications ≠ [.OnError 111, .OnDisconnect] := by
  decide

/-- C4 amended: with callbacks allowed and the client not closing, a connect failure or a read
failure notifies `OnError` followed by `OnDisconnect` when the flag `mDoReconnect` is false, and
`OnError` alone when it is true; the reconnect delay plays no part. -/
theorem failure_notifications (s : ASyncTCP) (error : error_code) (data : Msg)
    (hallow : s.mAllowCallbacks = true) (hclosing : s.mIsClosing = false) (herr : error ≠ 0) :
    (s.handle_connect error).notifications
      = s.notifications ++
          (if s.mDoReconnect then [.OnError error] else [.OnError error, .OnDisconnect]) ∧
    (s.handle_read error data).notifications
      = s.notifications ++
          (if s.mDoReconnect then [.OnError error] else [.OnError error, .OnDisconnect]) := by
  constructor <;>
    simp only [ASyncTCP.handle_connect, ASyncTCP.handle_read, ASyncTCP.StartReconnect,
      ASyncTCP.notifications] <;>
    split_ifs <;> simp_all

/-- The amended C4 on a client as constructed, delay set to 0: `OnError` alone. -/
theorem failure_notifications_witness :
    ((((ASyncTCP.new false).SetReconnectDelay 0).connect E0).handle_connect 111).notifications
      = (((ASyncTCP.new false).SetReconnectDelay 0).connect E0).notifications ++
          (if (((ASyncTCP.new false).SetReconnectDelay 0).connect E0).mDoReconnect
            then [.OnError 111] else [.OnError 111, .OnDisconnect]) ∧
    ((((ASyncTCP.new false).SetReconnectDelay 0).connect E0).handle_read 111 []).notifications
      = (((ASyncTCP.new false).SetReconnectDelay 0).connect E0).notifications ++
          (if (((ASyncTCP.new false).SetReconnectDelay 0).connect E0).mDoReconnect
            then [.OnError 111] else [.OnError 111, .OnDisconnect]) :=
  failure_notifications _ 111 [] (by decide) (by decide) (by decide)

/-- With a reconnect delay of 0, a connect, read or write failure arms no timer, adds no timer
wait and leaves the guard `mIsReconnecting` as it was, in whatever state it is delivered. -/
theorem failure_with_delay_zero (s : ASyncTCP) (e : Event) (he : e.isFailure = true)
    (h : s.m_reconnect_delay = 0) :
    (s.step e).armed = s.armed ∧ (s.step e).armings = s.armings ∧
      (s.step e).mIsReconnecting = s.mIsReconnecting := by
  simp only [ASyncTCP.armed, ASyncTCP.armings]
  cases e <;> simp [Event.isFailure] at he <;>
    simp only [ASyncTCP.step, ASyncTCP.deliver, ASyncTCP.handle_connect,
      ASyncTCP.handle_read, ASyncTCP.write_end, ASyncTCP.do_close,
      ASyncTCP.StartReconnect] <;>
    (try split_ifs) <;> simp_all

/-- Kept by every event: at most one timer wait is outstanding, and none when the guard
`mIsReconnecting` is false. -/
theorem step_armed (s : ASyncTCP) (e : Event)
    (h : s.armed ≤ 1 ∧ (s.mIsReconnecting = false → s.armed = 0)) :
    (s.step e).armed ≤ 1 ∧ ((s.step e).mIsReconnecting = false → (s.step e).armed = 0) := by
  obtain ⟨h1, h2⟩ := h
  simp only [ASyncTCP.armed] at h1 h2 ⊢
  cases e <;>
    simp only [ASyncTCP.step, ASyncTCP.deliver, ASyncTCP.do_close, ASyncTCP.read,
      ASyncTCP.do_write, ASyncTCP.handle_connect, ASyncTCP.handle_handshake,
      ASyncTCP.handle_read, ASyncTCP.write_end, ASyncTCP.do_reconnect,
      ASyncTCP.StartReconnect, ASyncTCP.connect, ASyncTCP.connect_host, ASyncTCP.disconnect,
      ASyncTCP.terminate, ASyncTCP.close, ASyncTCP.write, ASyncTCP.SetReconnectDelay] <;>
    (try split_ifs) <;> (try split) <;> simp_all [List.count_erase_self]

/-- A connect, read or write failure delivered while the guard `mIsReconnecting` is true neither
arms the timer nor changes the number of outstanding timer waits. -/
theorem failure_while_reconnecting (s : ASyncTCP) (e : Event) (he : e.isFailure = true)
    (h : s.mIsReconnecting = true) :
    (s.step e).armed = s.armed ∧ (s.step e).armings = s.armings := by
  simp only [ASyncTCP.armed, ASyncTCP.armings]
  cases e <;> simp [Event.isFailure] at he <;>
    simp only [ASyncTCP.step, ASyncTCP.deliver, ASyncTCP.handle_connect,
      ASyncTCP.handle_read, ASyncTCP.write_end, ASyncTCP.do_close,
      ASyncTCP.StartReconnect] <;>
    (try split_ifs) <;> simp_all

/-- C6: in every state a client can reach, at most one reconnect timer wait is outstanding; and
a connect, read or write failure delivered while one is outstanding arms no second timer and does
not re-arm the first. -/
theorem reconnect_idempotence (secure : Bool) (evs : List Event) :
    ((ASyncTCP.new secure).run evs).armed ≤ 1 ∧
    ∀ e : Event, e.isFailure = true → ((ASyncTCP.new secure).run evs).armed = 1 →
      (((ASyncTCP.new secure).run evs).step e).armed = 1 ∧
      (((ASyncTCP.new secure).run evs).step e).armings
        = ((ASyncTCP.new secure).run evs).armings := by
  have inv := run_induction
    (fun t => t.armed ≤ 1 ∧ (t.mIsReconnecting = false → t.armed = 0))
    step_armed (ASyncTCP.new secure) (by cases secure <;> decide) evs
  refine ⟨inv.1, fun e he harmed => ?_⟩
  have hrec : ((ASyncTCP.new secure).run evs).mIsReconnecting = true := by
    cases hr : ((ASyncTCP.new secure).run evs).mIsReconnecting
    · have := inv.2 hr
      omega
    · rfl
  have key := failure_while_reconnecting _ e he hrec
  exact ⟨key.1.trans harmed, key.2⟩

/-- C6 on a client whose first connect failed (timer armed) and whose second, manual connect
fails too: still one timer wait, armed once. -/
theorem reconnect_idempotence_witness :
    ((ASyncTCP.new false).run [.connect E0, .connect_done 111, .connect E0]).armed ≤ 1 ∧
    (((ASyncTCP.new false).run [.connect E0, .connect_done 111, .connect E0]).step
        (.connect_done 111)).armed = 1 ∧
    (((ASyncTCP.new false).run [.connect E0, .connect_done 111, .connect E0]).step
        (.connect_done 111)).armings
      = ((ASyncTCP.new false).run [.connect E0, .connect_done 111, .connect E0]).armings :=
  ⟨(reconnect_idempotence false [.connect E0, .connect_done 111, .connect E0]).1,
   (reconnect_idempotence false [.connect E0, .connect_done 111, .connect E0]).2
      (.connect_done 111) (by decide) (by decide)⟩

/-! ## One write submission at a time -/

/-- Running a pending item that is not a write submission leaves the write submissions alone. -/
theorem filter_isWrite_erase (l : List Pending) (p : Pending) (hp : p.isWrite = false) :
    (l.erase p).filter Pending.isWrite = l.filter Pending.isWrite := by
  induction l with
  | nil => rfl
  | cons a l ih =>
    by_cases hap : a = p
    · subst hap
      simp [hp]
    · have hne : (a == p) = false := by simpa using hap
      rw [List.erase_cons, hne]
      simp only [Bool.false_eq_true, if_false, List.filter_cons, ih]

/-- When at most one write submission is pending and `p` is one, it is the only one, and none is
left once it has run. -/
theorem filter_isWrite_single (l : List Pending) (p : Pending) (hp : p.isWrite = true)
    (hmem : p ∈ l) (hle : (l.filter Pending.isWrite).length ≤ 1) :
    l.filter Pending.isWrite = [p] ∧ (l.erase p).filter Pending.isWrite = [] := by
  induction l with
  | nil => simp at hmem
  | cons a l ih =>
    by_cases hap : a = p
    · subst hap
      simp only [List.filter_cons, hp, if_true, List.length_cons] at hle ⊢
      have hnil : l.filter Pending.isWrite = [] := List.length_eq_zero.mp (by omega)
      simp [hnil]
    · have hne : (a == p) = false := by simpa using hap
      have hmem2 : p ∈ l := by
        rcases List.mem_cons.mp hmem with h | h
        · exact absurd h.symm hap
        · exact h
      rw [List.erase_cons, hne]
      cases ha : a.isWrite
      · simp only [List.filter_cons, ha, Bool.false_eq_true, if_false] at hle ⊢
        exact ih hmem2 hle
      · simp only [List.filter_cons, ha, if_true, List.length_cons] at hle
        have hnil : l.filter Pending.isWrite = [] := List.length_eq_zero.mp (by omega)
        have : p ∈ l.filter Pending.isWrite := List.mem_filter.mpr ⟨hmem2, hp⟩
        rw [hnil] at this
        simp at this

/-- Events other than `write`, a posted `do_write` and a write completion touch neither the
pending write submissions, nor the in-flight flag, nor the queue, nor what was transmitted. -/
theorem step_write_frame (s : ASyncTCP) (e : Event)
    (he : e.isWritePath = false) :
    (s.step e).pending.filter Pending.isWrite = s.pending.filter Pending.isWrite ∧
    (s.step e).mWriteInProgress = s.mWriteInProgress ∧
    (s.step e).writeQ = s.writeQ ∧
    (s.step e).transmitted = s.transmitted := by
  simp only [ASyncTCP.transmitted]
  cases e <;> simp [Event.isWritePath] at he <;>
    simp only [ASyncTCP.step, ASyncTCP.deliver, ASyncTCP.do_close, ASyncTCP.read,
      ASyncTCP.handle_connect, ASyncTCP.handle_handshake,
      ASyncTCP.handle_read, ASyncTCP.do_reconnect,
      ASyncTCP.StartReconnect, ASyncTCP.connect, ASyncTCP.connect_host, ASyncTCP.disconnect,
      ASyncTCP.terminate, ASyncTCP.close, ASyncTCP.SetReconnectDelay] <;>
    (try split_ifs) <;> (try split) <;> simp_all [filter_isWrite_erase, Pending.isWrite]

/-- Kept by every event: at most one write submission is outstanding, and none when the flag
`mWriteInProgress` is false. -/
theorem step_single_flight (s : ASyncTCP) (e : Event)
    (h : s.outstanding_writes ≤ 1 ∧ (s.mWriteInProgress = false → s.outstanding_writes = 0)) :
    (s.step e).outstanding_writes ≤ 1 ∧
      ((s.step e).mWriteInProgress = false → (s.step e).outstanding_writes = 0) := by
  obtain ⟨h1, h2⟩ := h
  simp only [ASyncTCP.outstanding_writes] at h1 h2 ⊢
  cases hw : e.isWritePath
  case false =>
    have f := step_write_frame s e hw
    rw [f.1, f.2.1]
    exact ⟨h1, h2⟩
  cases e <;> simp [Event.isWritePath] at hw
  case write m =>
    simp only [ASyncTCP.step, ASyncTCP.write]
    split_ifs <;> simp_all [Pending.isWrite]
  case run_do_write m =>
    simp only [ASyncTCP.step, ASyncTCP.deliver]
    split_ifs with hm
    · obtain ⟨hone, hnone⟩ := filter_isWrite_single s.pending (.do_write m) rfl hm h1
      have hflag : s.mWriteInProgress = true := by
        cases hf : s.mWriteInProgress
        · have := h2 hf
          simp [hone] at this
        · rfl
      simp only [ASyncTCP.do_write]
      split_ifs <;> simp [hnone, hflag, Pending.isWrite]
    · exact ⟨h1, h2⟩
  case write_done err =>
    simp only [ASyncTCP.step, ASyncTCP.deliver]
    split_ifs with hm
    · obtain ⟨hone, hnone⟩ := filter_isWrite_single s.pending .async_write rfl hm h1
      have hflag : s.mWriteInProgress = true := by
        cases hf : s.mWriteInProgress
        · have := h2 hf
          simp [hone] at this
        · rfl
      simp only [ASyncTCP.write_end, ASyncTCP.StartReconnect]
      split_ifs <;> (try split) <;> simp [hnone, hflag, Pending.isWrite]
    · exact ⟨h1, h2⟩

/-- C2: in every state a client can reach through public calls and the engine running pending
handlers and completions, at most one write submission (posted `do_write` or transport write
awaiting `write_end`) is outstanding, and none is when `mWriteInProgress` is false. -/
theorem single_write_in_flight (secure : Bool) (evs : List Event) :
    ((ASyncTCP.new secure).run evs).outstanding_writes ≤ 1 ∧
    (((ASyncTCP.new secure).run evs).mWriteInProgress = false →
      ((ASyncTCP.new secure).run evs).outstanding_writes = 0) :=
  run_induction
    (fun t => t.outstanding_writes ≤ 1 ∧ (t.mWriteInProgress = false → t.outstanding_writes = 0))
    step_single_flight (ASyncTCP.new secure) (by cases secure <;> decide) evs

/-- C2 on a connected client after two writes, the first handed to the transport and completed:
the second is the one submission outstanding; and on a fresh client none is. -/
theorem single_write_in_flight_witness :
    ((ASyncTCP.new false).run [.connect E0, .connect_done 0, .write [65], .write [66],
        .run_do_write [65], .write_done 0]).outstanding_writes = 1 ∧
    ((ASyncTCP.new false).run []).outstanding_writes = 0 :=
  ⟨by decide,
   (single_write_in_flight false []).2 (by decide)⟩

/-! ## Write ordering -/

/-- A pending item that passes the write filter is in the filtered list. -/
theorem mem_filter_isWrite (l : List Pending) (p : Pending) (hp : p.isWrite = true)
    (hmem : p ∈ l) : p ∈ l.filter Pending.isWrite :=
  List.mem_filter.mpr ⟨hmem, hp⟩

/-- Every event of the write path keeps `WriteInv`, a `write` call adding its message. -/
theorem step_WriteInv (t0 ms : List Msg) (s : ASyncTCP) (e : Event)
    (he : e.isWriteTraffic = true) (h : WriteInv t0 ms s) :
    WriteInv t0 (ms ++ e.message?.toList) (s.step e) := by
  obtain ⟨hc, hcl, sent, hsent, hcase⟩ := h
  simp only [ASyncTCP.transmitted] at hsent
  cases e <;> simp [Event.isWriteTraffic] at he
  case write m =>
    simp only [ASyncTCP.step, ASyncTCP.write, Event.message?, Option.toList, WriteInv,
      ASyncTCP.transmitted]
    rcases hcase with ⟨hwp, hf, hq, hs⟩ | ⟨m0, hwp, hf, hs⟩ | ⟨hwp, hf, hs⟩
    · refine ⟨by simp [hf, hc], by simp [hf, hcl], sent, by simp [hf, hsent], ?_⟩
      right; left
      exact ⟨m, by simp [hf, hwp, Pending.isWrite], by simp [hf], by simp [hf, hq, hs]⟩
    · refine ⟨by simp [hf, hc], by simp [hf, hcl], sent, by simp [hf, hsent], ?_⟩
      right; left
      exact ⟨m0, by simp [hf, hwp], by simp [hf], by simp [hf, ← hs]⟩
    · refine ⟨by simp [hf, hc], by simp [hf, hcl], sent, by simp [hf, hsent], ?_⟩
      right; right
      exact ⟨by simp [hf, hwp], by simp [hf], by simp [hf, ← hs]⟩
  case run_do_write m =>
    simp only [ASyncTCP.step, ASyncTCP.deliver, Event.message?, Option.toList,
      List.append_nil]
    split_ifs with hm
    · have hmem := mem_filter_isWrite s.pending (.do_write m) rfl hm
      rcases hcase with ⟨hwp, hf, hq, hs⟩ | ⟨m0, hwp, hf, hs⟩ | ⟨hwp, hf, hs⟩
      · simp [hwp] at hmem
      · simp only [hwp, List.mem_singleton, Pending.do_write.injEq] at hmem
        subst hmem
        have hnone := (filter_isWrite_single s.pending (.do_write m) rfl hm
          (by simp [hwp])).2
        simp only [ASyncTCP.do_write, WriteInv, ASyncTCP.transmitted]
        refine ⟨by simp [hc, hcl], by simp [hc, hcl], sent ++ [m],
          by simp [hc, hcl, hsent], ?_⟩
        right; right
        exact ⟨by simp [hc, hcl, hnone, Pending.isWrite], by simp [hc, hcl, hf],
          by simp [hc, hcl, hs]⟩
      · simp [hwp] at hmem
    · exact ⟨hc, hcl, sent, hsent, hcase⟩
  case write_done err =>
    subst he
    simp only [ASyncTCP.step, ASyncTCP.deliver, Event.message?, Option.toList,
      List.append_nil]
    split_ifs with hm
    · have hmem := mem_filter_isWrite s.pending .async_write rfl hm
      rcases hcase with ⟨hwp, hf, hq, hs⟩ | ⟨m0, hwp, hf, hs⟩ | ⟨hwp, hf, hs⟩
      · simp [hwp] at hmem
      · simp [hwp] at hmem
      · have hnone := (filter_isWrite_single s.pending .async_write rfl hm
          (by simp [hwp])).2
        simp only [ASyncTCP.write_end, WriteInv, ASyncTCP.transmitted]
        cases hq : s.writeQ with
        | nil =>
          refine ⟨by simp [hc, hcl], by simp [hc, hcl], sent, by simp [hc, hcl, hsent], ?_⟩
          left
          exact ⟨by simp [hcl, hnone], by simp [hcl], by simp [hcl, hq],
            by simpa [hq] using hs⟩
        | cons m rest =>
          refine ⟨by simp [hc, hcl], by simp [hc, hcl], sent, by simp [hc, hcl, hsent], ?_⟩
          right; left
          exact ⟨m, by simp [hcl, hnone, Pending.isWrite], by simp [hcl, hf],
            by simpa [hcl, hq] using hs⟩
    · exact ⟨hc, hcl, sent, hsent, hcase⟩

/-- A run of write-path events keeps `WriteInv`, adding the written messages in call order. -/
theorem run_WriteInv (t0 : List Msg) (evs : List Event) :
    ∀ (ms : List Msg) (s : ASyncTCP), (∀ e ∈ evs, e.isWriteTraffic = true) →
      WriteInv t0 ms s → WriteInv t0 (ms ++ evs.filterMap Event.message?) (s.run evs) := by
  induction evs with
  | nil => intro ms s _ h; simpa [run_nil] using h
  | cons e evs ih =>
    intro ms s hevs h
    have h1 := step_WriteInv t0 ms s e (hevs e (List.mem_cons_self e evs)) h
    have h2 := ih _ (s.step e) (fun x hx => hevs x (List.mem_cons_of_mem e hx)) h1
    rw [run_cons]
    cases hm : e.message? with
    | none => simpa [List.filterMap_cons, hm] using h2
    | some m => simpa [List.filterMap_cons, hm] using h2

/-- The posted `do_write` of a connected client hands its message to the transport. -/
theorem run_do_write_next (s : ASyncTCP) (m : Msg) (hc : s.mIsConnected = true)
    (hcl : s.mIsClosing = false)
    (hwp : s.pending.filter Pending.isWrite = [.do_write m]) :
    (s.step (.run_do_write m)).pending.filter Pending.isWrite = [.async_write] ∧
    (s.step (.run_do_write m)).writeQ = s.writeQ := by
  have hm : Pending.do_write m ∈ s.pending :=
    (List.mem_filter.mp (by rw [hwp]; exact List.mem_singleton.mpr rfl)).1
  have hnone := (filter_isWrite_single s.pending (.do_write m) rfl hm (by simp [hwp])).2
  simp only [ASyncTCP.step, ASyncTCP.deliver, if_pos hm, ASyncTCP.do_write]
  simp [hc, hcl, hnone, Pending.isWrite]

/-- A write completion without error on a client that is not closing posts the head of the
queue, or leaves nothing outstanding when the queue is empty. -/
theorem write_done_next (s : ASyncTCP) (hcl : s.mIsClosing = false)
    (hwp : s.pending.filter Pending.isWrite = [.async_write]) :
    (s.writeQ = [] ∧ (s.step (.write_done 0)).pending.filter Pending.isWrite = []) ∨
    (∃ m rest, s.writeQ = m :: rest ∧
      (s.step (.write_done 0)).pending.filter Pending.isWrite = [.do_write m] ∧
      (s.step (.write_done 0)).writeQ = rest) := by
  have hm : Pending.async_write ∈ s.pending :=
    (List.mem_filter.mp (by rw [hwp]; exact List.mem_singleton.mpr rfl)).1
  have hnone := (filter_isWrite_single s.pending .async_write rfl hm (by simp [hwp])).2
  simp only [ASyncTCP.step, ASyncTCP.deliver, if_pos hm, ASyncTCP.write_end]
  cases hq : s.writeQ with
  | nil => left; simp [hcl, hnone]
  | cons m rest => right; exact ⟨m, rest, rfl, by simp [hcl, hnone, Pending.isWrite],
      by simp [hcl]⟩

/-- Enough settling steps empty the write path of a connected client: everything written has
been handed to the transport, in order. -/
theorem settle_WriteInv (t0 ms : List Msg) :
    ∀ (n : Nat) (s : ASyncTCP), WriteInv t0 ms s →
      (s.pending.filter Pending.isWrite = [] ∨
       (∃ m, s.pending.filter Pending.isWrite = [.do_write m] ∧ 2 * s.writeQ.length + 2 ≤ n) ∨
       (s.pending.filter Pending.isWrite = [.async_write] ∧ 2 * s.writeQ.length + 1 ≤ n)) →
      (ASyncTCP.settle_writes n s).transmitted = t0 ++ ms ∧
      (ASyncTCP.settle_writes n s).mWriteInProgress = false ∧
      (ASyncTCP.settle_writes n s).writeQ = [] ∧
      (ASyncTCP.settle_writes n s).outstanding_writes = 0 := by
  have idle : ∀ s : ASyncTCP, WriteInv t0 ms s → s.pending.filter Pending.isWrite = [] →
      s.transmitted = t0 ++ ms ∧ s.mWriteInProgress = false ∧ s.writeQ = [] ∧
        s.outstanding_writes = 0 := by
    intro s h hwp
    obtain ⟨_, _, sent, hsent, hcase⟩ := h
    rcases hcase with ⟨_, hf, hq, hs⟩ | ⟨m0, hwp2, _, _⟩ | ⟨hwp2, _, _⟩
    · exact ⟨by rw [hsent, hs], hf, hq, by simp [ASyncTCP.outstanding_writes, hwp]⟩
    · rw [hwp] at hwp2; cases hwp2
    · rw [hwp] at hwp2; cases hwp2
  intro n
  induction n with
  | zero =>
    intro s h hb
    rcases hb with hwp | ⟨m, _, hn⟩ | ⟨_, hn⟩
    · exact idle s h hwp
    · omega
    · omega
  | succ n ih =>
    intro s h hb
    rcases hb with hwp | ⟨m, hwp, hn⟩ | ⟨hwp, hn⟩
    · have : ASyncTCP.settle_writes (n + 1) s = s := by
        simp only [ASyncTCP.settle_writes, hwp]
      rw [this]
      exact idle s h hwp
    · have hs : ASyncTCP.settle_writes (n + 1) s
          = ASyncTCP.settle_writes n (s.step (.run_do_write m)) := by
        simp only [ASyncTCP.settle_writes, hwp]
      rw [hs]
      have hnext := run_do_write_next s m h.1 h.2.1 hwp
      have hinv := step_WriteInv t0 ms s (.run_do_write m) rfl h
      simp only [Event.message?, Option.toList, List.append_nil] at hinv
      exact ih _ hinv (Or.inr (Or.inr ⟨hnext.1, by rw [hnext.2]; omega⟩))
    · have hs : ASyncTCP.settle_writes (n + 1) s
          = ASyncTCP.settle_writes n (s.step (.write_done 0)) := by
        simp only [ASyncTCP.settle_writes, hwp]
      rw [hs]
      have hinv := step_WriteInv t0 ms s (.write_done 0) rfl h
      simp only [Event.message?, Option.toList, List.append_nil] at hinv
      rcases write_done_next s h.2.1 hwp with ⟨_, hnil⟩ | ⟨m, rest, hq, hwp2, hq2⟩
      · exact ih _ hinv (Or.inl hnil)
      · refine ih _ hinv (Or.inr (Or.inl ⟨m, hwp2, ?_⟩))
        rw [hq2]
        rw [hq] at hn
        simp only [List.length_cons] at hn
        omega

/-- C1: from a connected client that is not closing, with no write in flight, an empty queue and
no write submission outstanding, after any interleaving of `write` calls, posted `do_write`
handlers and error-free write completions, once the outstanding submissions have been run to
the end the transport has been handed exactly the written messages, each once, in call order. -/
theorem write_ordering (s0 : ASyncTCP) (hc : s0.mIsConnected = true)
    (hcl : s0.mIsClosing = false) (hf : s0.mWriteInProgress = false) (hq : s0.writeQ = [])
    (hp : s0.outstanding_writes = 0) (evs : List Event)
    (hevs : ∀ e ∈ evs, e.isWriteTraffic = true) (n : Nat) (hn : 2 * evs.length + 1 ≤ n) :
    (ASyncTCP.settle_writes n (s0.run evs)).transmitted
      = s0.transmitted ++ evs.filterMap Event.message? ∧
    (ASyncTCP.settle_writes n (s0.run evs)).mWriteInProgress = false ∧
    (ASyncTCP.settle_writes n (s0.run evs)).writeQ = [] ∧
    (ASyncTCP.settle_writes n (s0.run evs)).outstanding_writes = 0 := by
  have h0 : WriteInv s0.transmitted [] s0 :=
    ⟨hc, hcl, [], by simp,
      Or.inl ⟨List.length_eq_zero.mp (by simpa [ASyncTCP.outstanding_writes] using hp),
        hf, hq, rfl⟩⟩
  have h1 := run_WriteInv s0.transmitted evs [] s0 hevs h0
  simp only [List.nil_append] at h1
  have hlen : (evs.filterMap Event.message?).length ≤ evs.length :=
    List.length_filterMap_le _ _
  refine settle_WriteInv s0.transmitted _ n (s0.run evs) h1 ?_
  obtain ⟨_, _, sent, _, hcase⟩ := h1
  rcases hcase with ⟨hwp, _, _, _⟩ | ⟨m, hwp, _, hs⟩ | ⟨hwp, _, hs⟩
  · exact Or.inl hwp
  · refine Or.inr (Or.inl ⟨m, hwp, ?_⟩)
    have := congrArg List.length hs
    simp only [List.length_append, List.length_cons] at this
    omega
  · refine Or.inr (Or.inr ⟨hwp, ?_⟩)
    have := congrArg List.length hs
    simp only [List.length_append] at this
    omega

/-- C1 on the scenario `write("A")` then `write("B")` before the first completes, `write("C")`
after it: the transport is handed A, B, C. -/
theorem write_ordering_witness :
    (ASyncTCP.settle_writes 13 (connectedClient.run
        [.write [65], .write [66], .run_do_write [65], .write_done 0, .write [67],
          .run_do_write [67]])).transmitted
      = connectedClient.transmitted ++ [[65], [66], [67]] ∧
    (ASyncTCP.settle_writes 13 (connectedClient.run
        [.write [65], .write [66], .run_do_write [65], .write_done 0, .write [67],
          .run_do_write [67]])).mWriteInProgress = false ∧
    (ASyncTCP.settle_writes 13 (connectedClient.run
        [.write [65], .write [66], .run_do_write [65], .write_done 0, .write [67],
          .run_do_write [67]])).writeQ = [] ∧
    (ASyncTCP.settle_writes 13 (connectedClient.run
        [.write [65], .write [66], .run_do_write [65], .write_done 0, .write [67],
          .run_do_write [67]])).outstanding_writes = 0 :=
  write_ordering connectedClient (by decide) (by decide) (by decide) (by decide) (by decide)
    [.write [65], .write [66], .run_do_write [65], .write_done 0, .write [67],
      .run_do_write [67]] (by decide) 13 (by decide)

/-! ## Where the flags go wrong -/

/-- C7 fails on the code.  Secured client: a second `connect` is accepted while the first
handshake is running; the first handshake completes, the client is disconnected, the posted
`do_close` sets `mIsClosing`, and the second handshake, completing with an error,
sets `mIsConnected` all the same.  Plaintext client: two connects accepted, the first completes,
the client is disconnected, the second completes before the posted `do_close` runs. -/
theorem connected_and_closing_both_true :
    (((ASyncTCP.new true).run [.connect E0, .connect_done 0, .connect E0, .connect_done 0,
        .handshake_done 0, .disconnect false, .run_read, .run_do_close,
        .handshake_done 125]).mIsConnected = true ∧
     ((ASyncTCP.new true).run [.connect E0, .connect_done 0, .connect E0, .connect_done 0,
        .handshake_done 0, .disconnect false, .run_read, .run_do_close,
        .handshake_done 125]).mIsClosing = true) ∧
    (((ASyncTCP.new false).run [.connect E0, .connect E0, .connect_done 0, .disconnect false,
        .connect_done 0, .run_read, .run_do_close]).mIsConnected = true ∧
     ((ASyncTCP.new false).run [.connect E0, .connect E0, .connect_done 0, .disconnect false,
        .connect_done 0, .run_read, .run_do_close]).mIsClosing = true) := by
  decide

/-- C8 fails on the code.  The first connect fails and arms the timer; a manual connect succeeds
before the timer expires; `do_reconnect` then returns early and leaves `mIsReconnecting` true.
The read failure that follows, with `mIsClosing` false and delay 30, arms no timer: the guard is
true, no timer wait is outstanding, nothing at all is pending. -/
theorem failure_without_reconnect :
    ((ASyncTCP.new false).run [.connect E0, .connect_done 111, .connect E0, .connect_done 0,
        .run_read, .timer_done 0]).mIsClosing = false ∧
    ((ASyncTCP.new false).run [.connect E0, .connect_done 111, .connect E0, .connect_done 0,
        .run_read, .timer_done 0]).m_reconnect_delay = 30 ∧
    ((ASyncTCP.new false).run [.connect E0, .connect_done 111, .connect E0, .connect_done 0,
        .run_read, .timer_done 0]).pending = [.async_read] ∧
    ((ASyncTCP.new false).run [.connect E0, .connect_done 111, .connect E0, .connect_done 0,
        .run_read, .timer_done 0, .read_done 104 []]).mIsReconnecting = true ∧
    ((ASyncTCP.new false).run [.connect E0, .connect_done 111, .connect E0, .connect_done 0,
        .run_read, .timer_done 0, .read_done 104 []]).armed = 0 ∧
    ((ASyncTCP.new false).run [.connect E0, .connect_done 111, .connect E0, .connect_done 0,
        .run_read, .timer_done 0, .read_done 104 []]).armings = [30] ∧
    ((ASyncTCP.new false).run [.connect E0, .connect_done 111, .connect E0, .connect_done 0,
        .run_read, .timer_done 0, .read_done 104 []]).pending = [] ∧
    ((ASyncTCP.new false).run [.connect E0, .connect_done 111, .connect E0, .connect_done 0,
        .run_read, .timer_done 0, .read_done 104 []]).notifications
      = [.OnError 111, .OnConnect, .OnError 104] := by
  decide

/-- C9 fails on the code.  A connected client is terminated; the posted `do_close` and the
outstanding read, aborted by the close, run; `mIsClosing` is now true for good, and the
`connect` that follows returns at once: callbacks stay disallowed, no connect is submitted. -/
theorem no_reuse_after_terminate_when_connected :
    ((connectedClient.terminate false).run [.run_do_close, .read_done 125 []]).pending = [] ∧
    ((connectedClient.terminate false).run [.run_do_close, .read_done 125 []]).mIsClosing
      = true ∧
    ((connectedClient.terminate false).run
        [.run_do_close, .read_done 125 [], .connect E0]).mAllowCallbacks = false ∧
    ((connectedClient.terminate false).run
        [.run_do_close, .read_done 125 [], .connect E0]).connects = connectedClient.connects ∧
    ((connectedClient.terminate false).run
        [.run_do_close, .read_done 125 [], .connect E0]).pending = [] := by
  decide

/-- What does hold for reuse: `connect` right after `terminate`, before the engine has run the
posted `do_close`, allows callbacks again and submits a connect. -/
theorem connect_right_after_terminate (s : ASyncTCP) (silent : Bool) (ep : endpoint) :
    ((s.terminate silent).connect ep).mAllowCallbacks = true ∧
    ((s.terminate silent).connect ep).connects = s.connects ++ [ep] ∧
    Pending.async_connect ∈ ((s.terminate silent).connect ep).pending := by
  simp only [ASyncTCP.terminate, ASyncTCP.disconnect, ASyncTCP.close, ASyncTCP.connect,
    ASyncTCP.connects]
  split_ifs <;> simp_all

/-- C10 fails on the code.  `disconnect()` on a connected client clears both flags and posts
`do_close`; when the engine runs it, `mIsClosing` becomes true and nothing clears it, so the
`connect` that follows is ignored: nothing is submitted. -/
theorem closing_stuck_after_disconnect :
    (connectedClient.disconnect false).mIsConnected = false ∧
    (connectedClient.disconnect false).mIsClosing = false ∧
    ((connectedClient.disconnect false).run [.run_do_close]).mIsConnected = false ∧
    ((connectedClient.disconnect false).run [.run_do_close]).mIsClosing = true ∧
    ((connectedClient.disconnect false).run [.run_do_close, .connect E0]).connects
      = connectedClient.connects ∧
    ((connectedClient.disconnect false).run [.run_do_close, .connect E0]).pending
      = [.async_read] ∧
    ((connectedClient.disconnect false).run
        [.run_do_close, .read_done 125 [], .connect E0]).mIsClosing = true ∧
    ((connectedClient.disconnect false).run
        [.run_do_close, .read_done 125 [], .connect E0]).pending = [] := by
  decide

/-! ## Connect while connected or closing -/

/-- C11 as stated fails: on a connected client with callbacks allowed, `connect(ip, port)` whose
resolution throws notifies `OnError(host_not_found)` and then the error of the address parse. -/
theorem connect_host_notifies_while_connected :
    connectedClient.mIsConnected = true ∧
    (connectedClient.connect_host none 9).notifications
      = connectedClient.notifications ++ [.OnError host_not_found, .OnErrorException] ∧
    (connectedClient.connect_host none 9).notifications ≠ connectedClient.notifications := by
  decide

/-- C11 amended: when `mIsConnected` or `mIsClosing` is true, `connect(endpoint)` changes nothing
at all, and `connect(ip, port)` changes nothing but the log, to which it adds only the sink calls
about a failed resolution, and those only when callbacks are allowed: every flag, the stored
endpoint, the write queue and the pending items are unchanged and nothing is submitted to the
transport; with an address resolved it changes nothing at all. -/
theorem connect_noop_when_connected_or_closing (s : ASyncTCP)
    (h : s.mIsConnected = true ∨ s.mIsClosing = true) (ep : endpoint)
    (resolved : Option (List Nat)) (port : Nat) :
    s.connect ep = s ∧
    s.connect_host resolved port
      = { s with log := s.log ++ (if s.mAllowCallbacks then resolution_errors resolved else []) } ∧
    (∀ a rest, s.connect_host (some (a :: rest)) port = s) ∧
    (s.connect_host resolved port).connects = s.connects ∧
    (s.connect_host resolved port).transmitted = s.transmitted := by
  have hc : ∀ ep2 : endpoint, s.connect ep2 = s := by
    intro ep2
    unfold ASyncTCP.connect
    rcases h with h | h <;> simp [h]
  have hh : s.connect_host resolved port
      = { s with log := s.log ++
            (if s.mAllowCallbacks then resolution_errors resolved else []) } := by
    rcases resolved with _ | _ | ⟨a, rest⟩ <;>
      simp only [ASyncTCP.connect_host, hc, resolution_errors, ASyncTCP.callback,
        ASyncTCP.emit] <;>
      cases hallow : s.mAllowCallbacks <;> simp <;> (cases s; simp_all)
  refine ⟨hc ep, hh, fun a rest => ?_, ?_, ?_⟩
  · simp only [ASyncTCP.connect_host, hc]
  · rw [hh]
    simp only [ASyncTCP.connects]
    rcases resolved with _ | _ | ⟨a, rest⟩ <;>
      cases hallow : s.mAllowCallbacks <;> simp [resolution_errors]
  · rw [hh]
    simp only [ASyncTCP.transmitted]
    rcases resolved with _ | _ | ⟨a, rest⟩ <;>
      cases hallow : s.mAllowCallbacks <;> simp [resolution_errors]

/-- The amended C11 on a connected client: failed resolution, no address, and an address. -/
theorem connect_noop_when_connected_or_closing_witness :
    connectedClient.connect E0 = connectedClient ∧
    connectedClient.connect_host none 9
      = { connectedClient with
          log := connectedClient.log ++
            (if connectedClient.mAllowCallbacks then resolution_errors none else []) } ∧
    (∀ a rest, connectedClient.connect_host (some (a :: rest)) 9 = connectedClient) ∧
    (connectedClient.connect_host none 9).connects = connectedClient.connects ∧
    (connectedClient.connect_host none 9).transmitted = connectedClient.transmitted :=
  connect_noop_when_connected_or_closing connectedClient (Or.inl (by decide)) E0 none 9

/-! ## The reconnect scenario -/

/-- C12: a plaintext client with delay 5 that connected to `E` has notified `OnConnect` once; a
read failure then notifies one `OnError` and no `OnDisconnect` and arms the timer once, with
delay 5; the expiry of the timer submits one connect, to `E`, keeps `E` as the stored endpoint
and clears `mIsReconnecting`. -/
theorem reconnect_scenario (E : endpoint) (error : error_code) (data : Msg)
    (timer_error : error_code) (herr : error ≠ 0) :
    (reconnectScenario E).notifications = [.OnConnect] ∧
    (reconnectScenario E).connects = [E] ∧
    (reconnectScenario E).armings = [] ∧
    ((reconnectScenario E).step (.read_done error data)).notifications
      = [.OnConnect, .OnError error] ∧
    ((reconnectScenario E).step (.read_done error data)).armings = [5] ∧
    ((reconnectScenario E).step (.read_done error data)).armed = 1 ∧
    ((reconnectScenario E).step (.read_done error data)).mIsReconnecting = true ∧
    ((reconnectScenario E).step (.read_done error data)).connects = [E] ∧
    ((reconnectScenario E).run [.read_done error data, .timer_done timer_error]).connects
      = [E, E] ∧
    ((reconnectScenario E).run [.read_done error data, .timer_done timer_error]).mEndPoint
      = E ∧
    ((reconnectScenario E).run [.read_done error data, .timer_done timer_error]).mIsReconnecting
      = false ∧
    ((reconnectScenario E).run [.read_done error data, .timer_done timer_error]).armings
      = [5] ∧
    ((reconnectScenario E).run [.read_done error data, .timer_done timer_error]).armed = 0 ∧
    ((reconnectScenario E).run [.read_done error data, .timer_done timer_error]).notifications
      = [.OnConnect, .OnError error] := by
  simp [reconnectScenario, ASyncTCP.run, ASyncTCP.step, ASyncTCP.deliver, ASyncTCP.new,
    ASyncTCP.SetReconnectDelay, ASyncTCP.connect, ASyncTCP.handle_connect, ASyncTCP.read,
    ASyncTCP.handle_read, ASyncTCP.StartReconnect, ASyncTCP.do_reconnect, ASyncTCP.callback,
    ASyncTCP.emit, ASyncTCP.post, ASyncTCP.notifications, ASyncTCP.connects, ASyncTCP.armings,
    ASyncTCP.armed, herr]

/-- C12 with the endpoint 192.0.2.1:9 and a connection reset (error 104). -/
theorem reconnect_scenario_witness :
    (reconnectScenario E0).notifications = [.OnConnect] ∧
    (reconnectScenario E0).connects = [E0] ∧
    (reconnectScenario E0).armings = [] ∧
    ((reconnectScenario E0).step (.read_done 104 [])).notifications
      = [.OnConnect, .OnError 104] ∧
    ((reconnectScenario E0).step (.read_done 104 [])).armings = [5] ∧
    ((reconnectScenario E0).step (.read_done 104 [])).armed = 1 ∧
    ((reconnectScenario E0).step (.read_done 104 [])).mIsReconnecting = true ∧
    ((reconnectScenario E0).step (.read_done 104 [])).connects = [E0] ∧
    ((reconnectScenario E0).run [.read_done 104 [], .timer_done 0]).connects = [E0, E0] ∧
    ((reconnectScenario E0).run [.read_done 104 [], .timer_done 0]).mEndPoint = E0 ∧
    ((reconnectScenario E0).run [.read_done 104 [], .timer_done 0]).mIsReconnecting = false ∧
    ((reconnectScenario E0).run [.read_done 104 [], .timer_done 0]).armings = [5] ∧
    ((reconnectScenario E0).run [.read_done 104 [], .timer_done 0]).armed = 0 ∧
    ((reconnectScenario E0).run [.read_done 104 [], .timer_done 0]).notifications
      = [.OnConnect, .OnError 104] :=
  reconnect_scenario E0 104 [] 0 (by decide)

/-! ## The handshake handler -/

/-- C13 fails on the code.  On a secured client whose connect succeeded, a handshake completion
carrying error 1 sets `mIsConnected`, notifies `OnConnect` and no `OnError`, posts the first
read (which then submits `async_read_some`), and arms no timer: exactly what the completion
without error does. -/
theorem handshake_error_taken_as_success :
    ((ASyncTCP.new true).run [.connect E0, .connect_done 0]).pending = [.async_handshake] ∧
    ((ASyncTCP.new true).run [.connect E0, .connect_done 0,
        .handshake_done 1]).mIsConnected = true ∧
    ((ASyncTCP.new true).run [.connect E0, .connect_done 0,
        .handshake_done 1]).notifications = [.OnConnect] ∧
    ((ASyncTCP.new true).run [.connect E0, .connect_done 0,
        .handshake_done 1]).pending = [.read] ∧
    ((ASyncTCP.new true).run [.connect E0, .connect_done 0,
        .handshake_done 1]).armings = [] ∧
    ((ASyncTCP.new true).run [.connect E0, .connect_done 0,
        .handshake_done 1, .run_read]).pending = [.async_read] ∧
    (ASyncTCP.new true).run [.connect E0, .connect_done 0, .handshake_done 1]
      = (ASyncTCP.new true).run [.connect E0, .connect_done 0, .handshake_done 0] := by
  decide

/-- The handshake handler does the same whatever its error code. -/
theorem handle_handshake_ignores_error (s : ASyncTCP) (error : error_code) :
    s.handle_handshake error = s.handle_handshake 0 ∧
    (s.handle_handshake error).mIsConnected = true := by
  simp [ASyncTCP.handle_handshake]

/-! ## Write failures and failures while closing -/

/-- C14: in every state, `write_end` with an error leaves the client in the very state
`handle_read` with that error leaves it in (same flags, same sink calls in the same order, same
timer arming), and neither touches the write queue. -/
theorem write_failure_like_read_failure (s : ASyncTCP) (error : error_code) (data : Msg)
    (herr : error ≠ 0) :
    s.write_end error = s.handle_read error data ∧
    (s.write_end error).writeQ = s.writeQ ∧
    (s.handle_read error data).writeQ = s.writeQ := by
  refine ⟨?_, ?_, ?_⟩ <;>
    simp only [ASyncTCP.write_end, ASyncTCP.handle_read, ASyncTCP.do_close,
      ASyncTCP.StartReconnect, ASyncTCP.callback, ASyncTCP.emit, ASyncTCP.post] <;>
    cases h1 : s.mIsClosing <;> cases h2 : s.mAllowCallbacks <;>
    cases h3 : s.mDoReconnect <;> cases h4 : s.mIsReconnecting <;>
    by_cases h5 : s.m_reconnect_delay = 0 <;> simp [herr, h1, h2, h3, h4, h5]

/-- C14 on a connected client with error 104: choosing the write failure or the read failure
gives the same state. -/
theorem write_failure_like_read_failure_witness :
    connectedClient.write_end 104 = connectedClient.handle_read 104 [] ∧
    (connectedClient.write_end 104).writeQ = connectedClient.writeQ ∧
    (connectedClient.handle_read 104 []).writeQ = connectedClient.writeQ :=
  write_failure_like_read_failure connectedClient 104 [] (by decide)

/-- C15: when `mIsClosing` is true, a read failure and a write failure leave the client exactly
as it was; delivered by the engine they only leave the pending items, so no sink call is made,
no timer is armed, and `mIsConnected`, `mIsClosing` and `mIsReconnecting` are unchanged. -/
theorem failure_while_closing_swallowed (s : ASyncTCP) (error : error_code) (data : Msg)
    (hcl : s.mIsClosing = true) (herr : error ≠ 0) :
    s.handle_read error data = s ∧ s.write_end error = s ∧
    (s.step (.read_done error data)).log = s.log ∧
    (s.step (.write_done error)).log = s.log ∧
    (s.step (.read_done error data)).armed = s.armed ∧
    (s.step (.write_done error)).armed = s.armed ∧
    (s.step (.read_done error data)).mIsConnected = s.mIsConnected ∧
    (s.step (.write_done error)).mIsConnected = s.mIsConnected ∧
    (s.step (.read_done error data)).mIsClosing = s.mIsClosing ∧
    (s.step (.write_done error)).mIsClosing = s.mIsClosing ∧
    (s.step (.read_done error data)).mIsReconnecting = s.mIsReconnecting ∧
    (s.step (.write_done error)).mIsReconnecting = s.mIsReconnecting := by
  have hr : ∀ t : ASyncTCP, t.mIsClosing = true → t.handle_read error data = t := by
    intro t ht
    simp [ASyncTCP.handle_read, ASyncTCP.do_close, ht, herr]
  have hw : ∀ t : ASyncTCP, t.mIsClosing = true → t.write_end error = t := by
    intro t ht
    simp [ASyncTCP.write_end, ht]
  refine ⟨hr s hcl, hw s hcl, ?_, ?_, ?_, ?_, ?_, ?_, ?_, ?_, ?_, ?_⟩ <;>
    simp only [ASyncTCP.step, ASyncTCP.deliver, ASyncTCP.armed] <;>
    split_ifs <;> (try rfl) <;>
    (first
      | rw [hr _ (by simpa using hcl)]
      | rw [hw _ (by simpa using hcl)]) <;>
    simp

/-- C15 on a client whose close has been carried out, its read then failing with error 125. -/
theorem failure_while_closing_swallowed_witness :
    ((connectedClient.disconnect false).run [.run_do_close]).mIsClosing = true ∧
    ((connectedClient.disconnect false).run [.run_do_close]).pending = [.async_read] ∧
    (((connectedClient.disconnect false).run [.run_do_close]).step (.read_done 125 [])).log
      = ((connectedClient.disconnect false).run [.run_do_close]).log ∧
    (((connectedClient.disconnect false).run [.run_do_close]).step
        (.read_done 125 [])).mIsReconnecting
      = ((connectedClient.disconnect false).run [.run_do_close]).mIsReconnecting :=
  ⟨by decide, by decide,
   (failure_while_closing_swallowed ((connectedClient.disconnect false).run [.run_do_close])
      125 [] (by decide) (by decide)).2.2.1,
   (failure_while_closing_swallowed ((connectedClient.disconnect false).run [.run_do_close])
      125 [] (by decide) (by decide)).2.2.2.2.2.2.2.2.2.2.1⟩

/-! ## Queue conservation -/

/-- The posted messages are those of the write submissions. -/
theorem filterMap_message_filter (l : List Pending) :
    l.filterMap Pending.message? = (l.filter Pending.isWrite).filterMap Pending.message? := by
  induction l with
  | nil => rfl
  | cons a l ih =>
    cases a <;> simp [Pending.message?, Pending.isWrite, List.filterMap_cons, ih]

/-- Events off the write path leave the write history alone. -/
theorem record_frame (h : WriteHistory) (s : ASyncTCP) (e : Event)
    (he : e.isWritePath = false) : h.record s e = h := by
  cases e <;> simp [Event.isWritePath] at he <;> rfl

/-- Every event keeps `QueueInv`. -/
theorem step_QueueInv (s : ASyncTCP) (h : WriteHistory) (e : Event) (hinv : QueueInv s h) :
    QueueInv (s.step e) (h.record s e) := by
  obtain ⟨ha, hb, hc, hd⟩ := hinv
  have ha2 := step_single_flight s e ha
  refine ⟨ha2, ?_⟩
  simp only [ASyncTCP.outstanding_writes] at ha
  simp only [ASyncTCP.posted_writes, ASyncTCP.transmitted] at hb hd ⊢
  rw [filterMap_message_filter] at hb
  rw [filterMap_message_filter]
  cases hw : e.isWritePath
  case false =>
    have f := step_write_frame s e hw
    simp only [ASyncTCP.transmitted] at f
    rw [record_frame h s e hw, f.1, f.2.1, f.2.2.1, f.2.2.2]
    exact ⟨hb, hc, hd⟩
  cases e <;> simp [Event.isWritePath] at hw
  case write m =>
    simp only [ASyncTCP.step, ASyncTCP.write, WriteHistory.record]
    cases hf : s.mWriteInProgress
    · have hnil : s.pending.filter Pending.isWrite = [] :=
        List.length_eq_zero.mp (ha.2 hf)
      have hq := hc hf
      rw [hnil, hq] at hb
      simp only [List.filterMap_nil, List.append_nil] at hb
      simp [hnil, hq, Pending.isWrite, Pending.message?, ← hb, hd]
    · simp [← hb, hd]
  case run_do_write m =>
    simp only [ASyncTCP.step, ASyncTCP.deliver, WriteHistory.record]
    split_ifs with hm
    · obtain ⟨hone, hnone⟩ := filter_isWrite_single s.pending (.do_write m) rfl hm ha.1
      rw [hone] at hb
      simp only [List.filterMap_cons, Pending.message?, List.filterMap_nil] at hb
      simp only [ASyncTCP.do_write]
      split_ifs <;>
        simp [hnone, Pending.isWrite, Pending.message?, ← hb, hc] <;>
        first
          | exact ⟨hc, hd⟩
          | exact ⟨hc, hd.trans (List.sublist_append_left _ _)⟩
    · exact ⟨by rw [← filterMap_message_filter] at hb ⊢; exact hb, hc, hd⟩
  case write_done err =>
    simp only [ASyncTCP.step, ASyncTCP.deliver, WriteHistory.record]
    split_ifs with hm
    · obtain ⟨hone, hnone⟩ := filter_isWrite_single s.pending .async_write rfl hm ha.1
      have hflag : s.mWriteInProgress = true := by
        cases hf : s.mWriteInProgress
        · have := ha.2 hf
          simp [hone] at this
        · rfl
      rw [hone] at hb
      simp only [List.filterMap_cons, Pending.message?, List.filterMap_nil,
        List.append_nil] at hb
      simp only [ASyncTCP.write_end, ASyncTCP.StartReconnect]
      cases hq : s.writeQ <;> cases hal : s.mAllowCallbacks <;> split_ifs <;>
        simp [hnone, hflag, hal, hq, Pending.isWrite, Pending.message?, ← hb, hd]
    · exact ⟨by rw [← filterMap_message_filter] at hb ⊢; exact hb, hc, hd⟩

/-- Keeping the history along does not change the run, and the written messages are those of
the `write` calls, in call order. -/
theorem run_recording_run (evs : List Event) :
    ∀ (s : ASyncTCP) (h : WriteHistory),
      (s.run_recording h evs).1 = s.run evs ∧
      (s.run_recording h evs).2.written = h.written ++ evs.filterMap Event.message? := by
  induction evs with
  | nil => intro s h; simp [ASyncTCP.run_recording, run_nil]
  | cons e evs ih =>
    intro s h
    have h1 := ih (s.step e) (h.record s e)
    simp only [ASyncTCP.run_recording, run_cons]
    refine ⟨h1.1, ?_⟩
    rw [h1.2]
    cases e <;> simp [WriteHistory.record, Event.message?, List.filterMap_cons]
    split_ifs <;> rfl

/-- Every run keeps `QueueInv`. -/
theorem run_recording_QueueInv (evs : List Event) :
    ∀ (s : ASyncTCP) (h : WriteHistory), QueueInv s h →
      QueueInv (s.run_recording h evs).1 (s.run_recording h evs).2 := by
  induction evs with
  | nil => intro s h hinv; exact hinv
  | cons e evs ih =>
    intro s h hinv
    exact ih (s.step e) (h.record s e) (step_QueueInv s h e hinv)

/-- C16: in every state a client can reach, the messages `do_write` has run with, followed by
the message of the posted `do_write` if any, followed by the write queue, are the messages passed
to `write` so far, in call order; the queue is empty whenever `mWriteInProgress` is false; and
the messages handed to the transport are a subsequence, in order, of the written ones. -/
theorem queue_conservation (secure : Bool) (evs : List Event) :
    ((ASyncTCP.new secure).run_recording ⟨[], []⟩ evs).1 = (ASyncTCP.new secure).run evs ∧
    ((ASyncTCP.new secure).run_recording ⟨[], []⟩ evs).2.written
      = evs.filterMap Event.message? ∧
    ((ASyncTCP.new secure).run_recording ⟨[], []⟩ evs).2.ran
        ++ ((ASyncTCP.new secure).run evs).posted_writes
        ++ ((ASyncTCP.new secure).run evs).writeQ
      = evs.filterMap Event.message? ∧
    (((ASyncTCP.new secure).run evs).mWriteInProgress = false →
      ((ASyncTCP.new secure).run evs).writeQ = []) ∧
    ((ASyncTCP.new secure).run evs).transmitted.Sublist (evs.filterMap Event.message?) := by
  have hrun := run_recording_run evs (ASyncTCP.new secure) ⟨[], []⟩
  have hinv := run_recording_QueueInv evs (ASyncTCP.new secure) ⟨[], []⟩
    (by cases secure <;> simp [QueueInv, ASyncTCP.new, ASyncTCP.outstanding_writes,
          ASyncTCP.posted_writes, ASyncTCP.transmitted])
  obtain ⟨_, hb, hc, hd⟩ := hinv
  simp only [List.nil_append] at hrun
  rw [hrun.1, hrun.2] at hb
  rw [hrun.1] at hc hd
  refine ⟨hrun.1, hrun.2, hb, hc, ?_⟩
  refine hd.trans ?_
  rw [← hb, List.append_assoc]
  exact List.sublist_append_left _ _

/-- C16 on a run with a disconnect in the middle: A is transmitted, B is handed to `do_write`
after the disconnect and goes nowhere, C stays queued; and a run that ends with nothing in
flight has an empty queue. -/
theorem queue_conservation_witness :
    ((ASyncTCP.new false).run_recording ⟨[], []⟩
        [.connect E0, .connect_done 0, .write [65], .write [66], .run_do_write [65],
          .write_done 0, .disconnect false, .run_do_write [66], .write [67]]).2.ran
        ++ ((ASyncTCP.new false).run
          [.connect E0, .connect_done 0, .write [65], .write [66], .run_do_write [65],
            .write_done 0, .disconnect false, .run_do_write [66], .write [67]]).posted_writes
        ++ ((ASyncTCP.new false).run
          [.connect E0, .connect_done 0, .write [65], .write [66], .run_do_write [65],
            .write_done 0, .disconnect false, .run_do_write [66], .write [67]]).writeQ
      = [[65], [66], [67]] ∧
    ((ASyncTCP.new false).run
        [.connect E0, .connect_done 0, .write [65], .write [66], .run_do_write [65],
          .write_done 0, .disconnect false, .run_do_write [66], .write [67]]).transmitted
      = [[65]] ∧
    ((ASyncTCP.new false).run [.connect E0, .connect_done 0, .write [65], .run_do_write [65],
        .write_done 0]).writeQ = [] :=
  ⟨(queue_conservation false
      [.connect E0, .connect_done 0, .write [65], .write [66], .run_do_write [65],
        .write_done 0, .disconnect false, .run_do_write [66], .write [67]]).2.2.1,
   by decide,
   (queue_conservation false [.connect E0, .connect_done 0, .write [65], .run_do_write [65],
      .write_done 0]).2.2.2.1 (by decide)⟩

/-! ## The wedged write path -/

/-- While the in-flight flag is true and the pending write submissions `L` hold no transport
write, an event that does not run a `do_write` of `L` keeps `L` and the flag, transmits nothing,
and at most appends its message to the queue. -/
theorem step_stalled (s : ASyncTCP) (e : Event) (L : List Pending)
    (hL : s.pending.filter Pending.isWrite = L) (hflag : s.mWriteInProgress = true)
    (hnoaw : Pending.async_write ∉ L)
    (hdis : ∀ m, e = .run_do_write m → Pending.do_write m ∉ L) :
    (s.step e).pending.filter Pending.isWrite = L ∧
    (s.step e).mWriteInProgress = true ∧
    (s.step e).transmitted = s.transmitted ∧
    (s.step e).writeQ = s.writeQ ++ e.message?.toList := by
  cases hw : e.isWritePath
  case false =>
    have f := step_write_frame s e hw
    have hm : e.message? = none := by
      cases e <;> simp [Event.isWritePath] at hw <;> rfl
    rw [f.1, f.2.1, f.2.2.1, f.2.2.2, hm]
    simp [hL, hflag]
  cases e <;> simp [Event.isWritePath] at hw
  case write m =>
    simp [ASyncTCP.step, ASyncTCP.write, hflag, hL, ASyncTCP.transmitted, Event.message?]
  case run_do_write m =>
    have hnot : Pending.do_write m ∉ s.pending := fun hmem =>
      hdis m rfl (hL ▸ mem_filter_isWrite s.pending (.do_write m) rfl hmem)
    simp [ASyncTCP.step, ASyncTCP.deliver, hnot, hflag, hL, Event.message?]
  case write_done err =>
    have hnot : Pending.async_write ∉ s.pending := fun hmem =>
      hnoaw (hL ▸ mem_filter_isWrite s.pending .async_write rfl hmem)
    simp [ASyncTCP.step, ASyncTCP.deliver, hnot, hflag, hL, Event.message?]

/-- A run of such events: the write path stays as it is, later messages pile up in the queue. -/
theorem run_stalled (L : List Pending) (hnoaw : Pending.async_write ∉ L) (evs : List Event) :
    ∀ s : ASyncTCP, s.pending.filter Pending.isWrite = L → s.mWriteInProgress = true →
      (∀ e ∈ evs, ∀ m, e = .run_do_write m → Pending.do_write m ∉ L) →
      (s.run evs).pending.filter Pending.isWrite = L ∧
      (s.run evs).mWriteInProgress = true ∧
      (s.run evs).transmitted = s.transmitted ∧
      (s.run evs).writeQ = s.writeQ ++ evs.filterMap Event.message? := by
  induction evs with
  | nil => intro s hL hflag _; simp [run_nil, hL, hflag]
  | cons e evs ih =>
    intro s hL hflag hdis
    have h1 := step_stalled s e L hL hflag hnoaw (hdis e (List.mem_cons_self e evs))
    have h2 := ih (s.step e) h1.1 h1.2.1 (fun x hx => hdis x (List.mem_cons_of_mem e hx))
    rw [run_cons]
    refine ⟨h2.1, h2.2.1, h2.2.2.1.trans h1.2.2.1, ?_⟩
    rw [h2.2.2.2, h1.2.2.2]
    cases hm : e.message? <;> simp [List.filterMap_cons, hm]

/-- C17: `write(m)` is called with nothing in flight, and the posted `do_write` runs when
`mIsConnected` is false or `mIsClosing` is true (whatever happened in between, later writes
included).  Then, whatever happens afterwards, `m` and every later message are never handed to
the transport, `mWriteInProgress` stays true, no write submission is outstanding any more, and
each later message is only appended to the queue. -/
theorem write_wedged (s : ASyncTCP) (m : Msg) (hf : s.mWriteInProgress = false)
    (hp : s.outstanding_writes = 0) (evs1 : List Event)
    (h1 : ∀ e ∈ evs1, e ≠ .run_do_write m)
    (hdown : ((s.write m).run evs1).mIsConnected = false ∨
      ((s.write m).run evs1).mIsClosing = true)
    (evs : List Event) :
    ((((s.write m).run evs1).step (.run_do_write m)).run evs).transmitted = s.transmitted ∧
    ((((s.write m).run evs1).step (.run_do_write m)).run evs).mWriteInProgress = true ∧
    ((((s.write m).run evs1).step (.run_do_write m)).run evs).outstanding_writes = 0 ∧
    ((((s.write m).run evs1).step (.run_do_write m)).run evs).posted_writes = [] ∧
    ((((s.write m).run evs1).step (.run_do_write m)).run evs).writeQ
      = s.writeQ ++ evs1.filterMap Event.message? ++ evs.filterMap Event.message? := by
  have hnil : s.pending.filter Pending.isWrite = [] :=
    List.length_eq_zero.mp (by simpa [ASyncTCP.outstanding_writes] using hp)
  -- after the write: one posted `do_write m`
  have a1 : (s.write m).pending.filter Pending.isWrite = [.do_write m] := by
    simp [ASyncTCP.write, hf, hnil, Pending.isWrite]
  have a2 : (s.write m).mWriteInProgress = true := by simp [ASyncTCP.write, hf]
  have a3 : (s.write m).transmitted = s.transmitted := by
    simp [ASyncTCP.write, hf, ASyncTCP.transmitted]
  have a4 : (s.write m).writeQ = s.writeQ := by simp [ASyncTCP.write, hf]
  -- until the posted handler runs
  have b := run_stalled [.do_write m] (by simp) evs1 (s.write m) a1 a2
    (fun e he m2 hm2 hmem => by
      simp only [List.mem_singleton, Pending.do_write.injEq] at hmem
      subst hmem
      exact h1 e he hm2)
  -- the posted handler runs and does nothing
  have hmem : Pending.do_write m ∈ ((s.write m).run evs1).pending :=
    (List.mem_filter.mp (by rw [b.1]; exact List.mem_singleton.mpr rfl)).1
  have hnone := (filter_isWrite_single _ (.do_write m) rfl hmem (by simp [b.1])).2
  have c : (((s.write m).run evs1).step (.run_do_write m)).pending.filter Pending.isWrite = [] ∧
      (((s.write m).run evs1).step (.run_do_write m)).mWriteInProgress = true ∧
      (((s.write m).run evs1).step (.run_do_write m)).transmitted
        = ((s.write m).run evs1).transmitted ∧
      (((s.write m).run evs1).step (.run_do_write m)).writeQ
        = ((s.write m).run evs1).writeQ := by
    simp only [ASyncTCP.step, ASyncTCP.deliver, if_pos hmem, ASyncTCP.do_write,
      ASyncTCP.transmitted]
    rcases hdown with hd | hd <;> split_ifs <;> simp_all
  -- from then on
  have d := run_stalled [] (by simp) evs _ c.1 c.2.1 (fun _ _ _ _ => by simp)
  refine ⟨?_, d.2.1, ?_, ?_, ?_⟩
  · rw [d.2.2.1, c.2.2.1, b.2.2.1, a3]
  · simp [ASyncTCP.outstanding_writes, d.1]
  · simp [ASyncTCP.posted_writes, filterMap_message_filter _, d.1]
  · rw [d.2.2.2, c.2.2.2, b.2.2.2, a4]

/-- C17 on a fresh client, never connected: A is written and its `do_write` runs; then the
client connects, B and C are written, reads complete: nothing is transmitted, B and C sit in the
queue, the flag is still true. -/
theorem write_wedged_witness :
    (((((ASyncTCP.new false).write [65]).run []).step (.run_do_write [65])).run
        [.connect E0, .connect_done 0, .run_read, .write [66], .read_done 0 [1], .write [67],
          .run_read]).transmitted = [] ∧
    (((((ASyncTCP.new false).write [65]).run []).step (.run_do_write [65])).run
        [.connect E0, .connect_done 0, .run_read, .write [66], .read_done 0 [1], .write [67],
          .run_read]).mWriteInProgress = true ∧
    (((((ASyncTCP.new false).write [65]).run []).step (.run_do_write [65])).run
        [.connect E0, .connect_done 0, .run_read, .write [66], .read_done 0 [1], .write [67],
          .run_read]).mIsConnected = true ∧
    (((((ASyncTCP.new false).write [65]).run []).step (.run_do_write [65])).run
        [.connect E0, .connect_done 0, .run_read, .write [66], .read_done 0 [1], .write [67],
          .run_read]).writeQ = [[66], [67]] :=
  have key := write_wedged (ASyncTCP.new false) [65] (by decide) (by decide) []
    (by simp) (Or.inl (by decide))
    [.connect E0, .connect_done 0, .run_read, .write [66], .read_done 0 [1], .write [67],
      .run_read]
  ⟨key.1, key.2.1, by decide, key.2.2.2.2⟩

end ASyncTCPModel
